import Mathlib

/-!
Shallow embedding of `src/scripts/delete_all_repos.py`, the bulk
repository-deletion workflow: the env-file loader, the HTTP call wrapper,
the paginated lister, the confirmation gate, the per-item deletion loop and
the orchestrating `main`, together with theorems settling the specification
claims about them.
-/

namespace DynoApps

/-- Characters removed by Python `str.strip()` with no argument
(the ASCII whitespace characters; the model covers the ASCII range). -/
def isPySpace (c : Char) : Bool :=
  c = ' ' || c = '\t' || c = '\n' || c = '\r' || c = Char.ofNat 11 || c = Char.ofNat 12

/-- Drop the characters satisfying `p` from both ends of a character list. -/
def dropEnds (p : Char → Bool) (l : List Char) : List Char :=
  ((l.dropWhile p).reverse.dropWhile p).reverse

/-- Python `s.strip(chars)`: remove the given characters from both ends. -/
def pyStripWith (p : Char → Bool) (s : String) : String :=
  String.mk (dropEnds p s.data)

/-- Python `s.strip()` with no argument: remove whitespace from both ends. -/
def pyStrip (s : String) : String := pyStripWith isPySpace s

/-- Decoded JSON values, as returned by `json.loads`. -/
inductive Json where
  | null
  | bool (b : Bool)
  | num (n : Int)
  | str (s : String)
  | arr (elems : List Json)
  | obj (fields : List (String × Json))

/-- One HTTP exchange as `call_github` (lines 86 to 101) observes it: the
status code and the decoded UTF-8 text of the response body. Both the normal
path and the `HTTPError` path of the source produce such a pair; `raw` is the
empty string when the body is empty or when the error response carries no
file object. -/
structure HttpExchange where
  status : Nat
  raw : String

/-- `call_github` (lines 86 to 101): the status is returned unchanged; an
empty text gives no body; otherwise the text is decoded by `json.loads`,
modelled by the external parameter `jsonLoads` where `none` stands for a
`JSONDecodeError`, and an undecodable text is wrapped as a one-field JSON
object whose key is `raw` and whose value is the raw text. -/
def call_github (jsonLoads : String → Option Json) (e : HttpExchange) :
    Nat × Option Json :=
  let body : Option Json :=
    if e.raw = "" then none
    else
      match jsonLoads e.raw with
      | some j => some j
      | none => some (Json.obj [("raw", Json.str e.raw)])
  (e.status, body)

/-- One repository item of a decoded list page: the fields the script uses,
`name` and the visibility flag. -/
structure RepoRecord where
  name : String
  isPrivate : Bool
deriving DecidableEq

/-- The decoded body of one page response of the list endpoint: either a JSON
list of repository items, or some other JSON value (the source rejects the
latter at its `isinstance` check). -/
inductive PageBody where
  | jsonList (items : List RepoRecord)
  | otherJson
deriving DecidableEq

/-- One response of the remote list endpoint as `list_all_repos` sees it
after `call_github`: the status and the optional decoded body. -/
structure PageResp where
  status : Nat
  body : Option PageBody
deriving DecidableEq

/-- The result of the listing phase: the collected repositories and the
number of page requests issued, a fatal `SystemExit` after some number of
requests, or `noResponse` when the modelled remote supplied fewer responses
than the loop asked for (the boundary of the finite model). -/
inductive ListOutcome where
  | ok (repos : List RepoRecord) (requests : Nat)
  | fatalErr (requests : Nat)
  | noResponse (requests : Nat)
deriving DecidableEq

/-- The fixed page size of `list_all_repos` (line 111). -/
def per_page : Nat := 100

/-- The `while True` loop of `list_all_repos` (lines 115 to 136), consuming
the remote responses page by page. Line order of the source: a non-200
status is fatal; a missing body, a non-list body or an empty list body is
fatal (an empty Python list is falsy, so `not body` catches it); the
`len(body) == 0` break on line 126 follows and is therefore unreachable;
then the items are appended, and a page shorter than `per_page` ends the
loop. -/
def listLoop : List PageResp → List RepoRecord → Nat → ListOutcome
  | [], _, requests => .noResponse requests
  | r :: rest, repos, requests =>
    if r.status ≠ 200 then .fatalErr (requests + 1)
    else
      match r.body with
      | some (.jsonList items) =>
        if items.isEmpty then .fatalErr (requests + 1)
        else if items.length = 0 then .ok repos (requests + 1)
        else
          if items.length < per_page then .ok (repos ++ items) (requests + 1)
          else listLoop rest (repos ++ items) (requests + 1)
      | _ => .fatalErr (requests + 1)

/-- `list_all_repos` (lines 104 to 137): run the page loop from page 1 with
an empty accumulator, against the given sequence of remote responses. -/
def list_all_repos (responses : List PageResp) : ListOutcome :=
  listLoop responses [] 0

/-- The per-item message of `delete_repo` (lines 148 to 154), keeping the
three distinct shapes of the source: deleted, not found (already absent),
and failed carrying the response status and body as the reason. -/
inductive DeleteMsg where
  | deletedMsg (name : String)
  | absentMsg (name : String)
  | failedMsg (name : String) (status : Nat) (body : Option Json)

/-- `delete_repo` (lines 140 to 154) after its `call_github`: status 204
gives success with a deleted message, 404 gives success with an
already-absent message, anything else gives failure with the reason. -/
def delete_repo (status : Nat) (body : Option Json) (name : String) :
    Bool × DeleteMsg :=
  if status = 204 then (true, .deletedMsg name)
  else if status = 404 then (true, .absentMsg name)
  else (false, .failedMsg name status body)

/-- The deletion-phase accumulator of `main` (lines 217 to 230): the two
counters and the per-item log in batch order. -/
structure DeletionTally where
  success_count : Nat
  fail_count : Nat
  log : List (Bool × DeleteMsg)

/-- The deletion loop of `main` (lines 220 to 230): one `delete_repo` call
per repository, in batch order; each item increments exactly one of the two
counters. `remote` gives the status and body of the delete call for a
repository name. -/
def deletionLoop (remote : String → Nat × Option Json) :
    List RepoRecord → DeletionTally
  | [] => ⟨0, 0, []⟩
  | r :: rest =>
    let resp := remote r.name
    let step := delete_repo resp.1 resp.2 r.name
    let t := deletionLoop remote rest
    ⟨(if step.1 then 1 else 0) + t.success_count,
     (if step.1 then 0 else 1) + t.fail_count,
     step :: t.log⟩

/-- `confirm_deletion` (lines 157 to 178), as a function of the operator
input line: the input is stripped and compared to the exact phrase. -/
def confirm_deletion (input : String) : Bool :=
  pyStrip input == "DELETE ALL"

/-- The external world of one run: the remote page responses, the operator input
line, and the remote delete responses by repository name. -/
structure World where
  pages : List PageResp
  confirmInput : String
  deleteRemote : String → Nat × Option Json

/-- The observable result of one run of `main`: the process exit code, the
number of delete calls issued, and the deletion tally when the deletion
phase ran. -/
structure RunResult where
  exitCode : Nat
  deleteCalls : Nat
  tally : Option DeletionTally

/-- `main` (lines 181 to 239) with the `__main__` wrapper (lines 242 to
250): a fatal `SystemExit` during listing exits 1; an empty batch returns
normally, exit 0; a declined confirmation raises `SystemExit(1)`; otherwise
the deletion loop runs to completion and `main` returns normally, exit 0
(the source sets no exit status from `fail_count`). `none` when the finite
response model ran out of pages. -/
def main (w : World) : Option RunResult :=
  match list_all_repos w.pages with
  | .noResponse _ => none
  | .fatalErr _ => some ⟨1, 0, none⟩
  | .ok repos _ =>
    if repos.length = 0 then some ⟨0, 0, none⟩
    else if confirm_deletion w.confirmInput then
      some ⟨0, repos.length, some (deletionLoop w.deleteRemote repos)⟩
    else some ⟨1, 0, none⟩

/-- The process environment, as a partial map from variable names to
values. -/
abbrev Env := String → Option String

/-- Python `line.split(Char.ofNat 61, 1)`: the text before the first equals
sign and the text after it. Only called on lines containing one. -/
def splitFirstEq (s : String) : String × String :=
  let key := s.data.takeWhile (fun c => c ≠ '=')
  (String.mk key, String.mk (s.data.drop (key.length + 1)))

/-- One line of the env file as `load_env_from_file` (lines 46 to 55) parses
it: strip; skip blank lines, comment lines and lines without an equals sign;
split at the first equals sign; strip the key; strip the value of
whitespace, then double quotes, then single quotes. -/
def parseEnvLine (line : String) : Option (String × String) :=
  let l := pyStrip line
  if l = "" then none
  else if l.startsWith "#" then none
  else if !(l.contains '=') then none
  else
    let kv := splitFirstEq l
    let key := pyStrip kv.1
    let value :=
      pyStripWith (fun c => c = Char.ofNat 39)
        (pyStripWith (fun c => c = '"') (pyStrip kv.2))
    some (key, value)

/-- Lines 57 to 59: set the parsed key only when it is nonempty and not
already present in the environment. -/
def applyEnvLine (env : Env) (line : String) : Env :=
  match parseEnvLine line with
  | none => env
  | some kv =>
    if kv.1 = "" then env
    else if (env kv.1).isSome then env
    else fun k => if k = kv.1 then some kv.2 else env k

/-- `load_env_from_file` (lines 33 to 59) over the lines of an existing env
file (a missing file leaves the environment untouched and is not modelled). -/
def load_env_from_file (env : Env) (fileLines : List String) : Env :=
  fileLines.foldl applyEnvLine env

/-- Whether a per-item message is the deleted one. -/
def isDeletedMsg : DeleteMsg → Bool
  | .deletedMsg _ => true
  | _ => false

/-- Whether a per-item message is the already-absent one. -/
def isAbsentMsg : DeleteMsg → Bool
  | .absentMsg _ => true
  | _ => false

/-- Whether a per-item message is the failed one. -/
def isFailedMsg : DeleteMsg → Bool
  | .failedMsg _ _ _ => true
  | _ => false

/-- The repository name a per-item message speaks about. -/
def msgName : DeleteMsg → String
  | .deletedMsg n => n
  | .absentMsg n => n
  | .failedMsg n _ _ => n

/-- Deleted outcomes in a deletion log. -/
def countDeleted (log : List (Bool × DeleteMsg)) : Nat :=
  (log.filter (fun e => isDeletedMsg e.2)).length

/-- Already-absent outcomes in a deletion log. -/
def countAbsent (log : List (Bool × DeleteMsg)) : Nat :=
  (log.filter (fun e => isAbsentMsg e.2)).length

/-- Failed outcomes in a deletion log. -/
def countFailed (log : List (Bool × DeleteMsg)) : Nat :=
  (log.filter (fun e => isFailedMsg e.2)).length

/-- A successful page response carrying the given items. -/
def toResp (p : List RepoRecord) : PageResp := ⟨200, some (.jsonList p)⟩

/-- A concrete repository record used by the concrete runs below. -/
def rRepo : RepoRecord := ⟨"repo-a", false⟩

/-- Each item of the batch contributes exactly one log entry. -/
theorem deletionLoop_log_length (remote : String → Nat × Option Json)
    (repos : List RepoRecord) :
    (deletionLoop remote repos).log.length = repos.length := by
  induction repos with
  | nil => rfl
  | cons r rest ih => simp [deletionLoop, ih]

/-- The log speaks about exactly the batch items, in batch order. -/
theorem deletionLoop_log_names (remote : String → Nat × Option Json)
    (repos : List RepoRecord) :
    (deletionLoop remote repos).log.map (fun e => msgName e.2) =
      repos.map RepoRecord.name := by
  induction repos with
  | nil => rfl
  | cons r rest ih =>
    simp only [deletionLoop, List.map_cons, ih]
    by_cases h1 : (remote r.name).1 = 204 <;> by_cases h2 : (remote r.name).1 = 404 <;>
      simp [delete_repo, msgName, h1, h2]

/-- Unfolding `countDeleted` over one more log entry. -/
theorem countDeleted_cons (e : Bool × DeleteMsg) (log : List (Bool × DeleteMsg)) :
    countDeleted (e :: log) = (if isDeletedMsg e.2 then 1 else 0) + countDeleted log := by
  by_cases h : isDeletedMsg e.2 <;> simp [countDeleted, List.filter_cons, h] <;> omega

/-- Unfolding `countAbsent` over one more log entry. -/
theorem countAbsent_cons (e : Bool × DeleteMsg) (log : List (Bool × DeleteMsg)) :
    countAbsent (e :: log) = (if isAbsentMsg e.2 then 1 else 0) + countAbsent log := by
  by_cases h : isAbsentMsg e.2 <;> simp [countAbsent, List.filter_cons, h] <;> omega

/-- Unfolding `countFailed` over one more log entry. -/
theorem countFailed_cons (e : Bool × DeleteMsg) (log : List (Bool × DeleteMsg)) :
    countFailed (e :: log) = (if isFailedMsg e.2 then 1 else 0) + countFailed log := by
  by_cases h : isFailedMsg e.2 <;> simp [countFailed, List.filter_cons, h] <;> omega

/-- The deleted outcomes of the log are exactly the items whose delete call
returned 204. -/
theorem deletionLoop_countDeleted (remote : String → Nat × Option Json)
    (repos : List RepoRecord) :
    countDeleted (deletionLoop remote repos).log =
      (repos.filter (fun r => (remote r.name).1 == 204)).length := by
  induction repos with
  | nil => rfl
  | cons r rest ih =>
    by_cases h1 : (remote r.name).1 = 204 <;> by_cases h2 : (remote r.name).1 = 404 <;>
      simp [deletionLoop, delete_repo, countDeleted_cons, List.filter_cons, isDeletedMsg,
        h1, h2, ih] <;> omega

/-- The already-absent outcomes of the log are exactly the items whose delete
call returned 404 (after the 204 branch declined). -/
theorem deletionLoop_countAbsent (remote : String → Nat × Option Json)
    (repos : List RepoRecord) :
    countAbsent (deletionLoop remote repos).log =
      (repos.filter (fun r =>
        !((remote r.name).1 == 204) && (remote r.name).1 == 404)).length := by
  induction repos with
  | nil => rfl
  | cons r rest ih =>
    by_cases h1 : (remote r.name).1 = 204 <;> by_cases h2 : (remote r.name).1 = 404 <;>
      simp [deletionLoop, delete_repo, countAbsent_cons, List.filter_cons, isAbsentMsg,
        h1, h2, ih] <;> omega

/-- The failed outcomes of the log are exactly the items whose delete call
returned neither 204 nor 404. -/
theorem deletionLoop_countFailed (remote : String → Nat × Option Json)
    (repos : List RepoRecord) :
    countFailed (deletionLoop remote repos).log =
      (repos.filter (fun r =>
        !((remote r.name).1 == 204) && !((remote r.name).1 == 404))).length := by
  induction repos with
  | nil => rfl
  | cons r rest ih =>
    by_cases h1 : (remote r.name).1 = 204 <;> by_cases h2 : (remote r.name).1 = 404 <;>
      simp [deletionLoop, delete_repo, countFailed_cons, List.filter_cons, isFailedMsg,
        h1, h2, ih] <;> omega

/-- The success counter merges the deleted and the already-absent outcomes. -/
theorem deletionLoop_success_count (remote : String → Nat × Option Json)
    (repos : List RepoRecord) :
    (deletionLoop remote repos).success_count =
      countDeleted (deletionLoop remote repos).log +
        countAbsent (deletionLoop remote repos).log := by
  induction repos with
  | nil => rfl
  | cons r rest ih =>
    by_cases h1 : (remote r.name).1 = 204 <;> by_cases h2 : (remote r.name).1 = 404 <;>
      simp [deletionLoop, delete_repo, countDeleted_cons, countAbsent_cons,
        isDeletedMsg, isAbsentMsg, h1, h2, ih] <;> omega

/-- The failure counter counts exactly the failed outcomes. -/
theorem deletionLoop_fail_count (remote : String → Nat × Option Json)
    (repos : List RepoRecord) :
    (deletionLoop remote repos).fail_count =
      countFailed (deletionLoop remote repos).log := by
  induction repos with
  | nil => rfl
  | cons r rest ih =>
    by_cases h1 : (remote r.name).1 = 204 <;> by_cases h2 : (remote r.name).1 = 404 <;>
      simp [deletionLoop, delete_repo, countFailed_cons, isFailedMsg, h1, h2, ih]

/-- Every log entry carries exactly one of the three outcome tags. -/
theorem deletionLoop_counts_partition (remote : String → Nat × Option Json)
    (repos : List RepoRecord) :
    countDeleted (deletionLoop remote repos).log +
      countAbsent (deletionLoop remote repos).log +
      countFailed (deletionLoop remote repos).log = repos.length := by
  induction repos with
  | nil => rfl
  | cons r rest ih =>
    by_cases h1 : (remote r.name).1 = 204 <;> by_cases h2 : (remote r.name).1 = 404 <;>
      simp [deletionLoop, delete_repo, countDeleted_cons, countAbsent_cons,
        countFailed_cons, isDeletedMsg, isAbsentMsg, isFailedMsg, h1, h2] <;> omega

/-- Each iteration increments exactly one of the two counters. -/
theorem deletionLoop_total (remote : String → Nat × Option Json)
    (repos : List RepoRecord) :
    (deletionLoop remote repos).success_count +
      (deletionLoop remote repos).fail_count = repos.length := by
  induction repos with
  | nil => rfl
  | cons r rest ih =>
    by_cases h1 : (remote r.name).1 = 204 <;> by_cases h2 : (remote r.name).1 = 404 <;>
      simp [deletionLoop, delete_repo, h1, h2] <;> omega

/-- A page of exactly `per_page` items neither errs nor ends the loop: its
items are appended and the loop moves to the next page. -/
theorem listLoop_full_step (p : List RepoRecord) (hp : p.length = per_page)
    (L : List PageResp) (acc : List RepoRecord) (reqs : Nat) :
    listLoop (toResp p :: L) acc reqs = listLoop L (acc ++ p) (reqs + 1) := by
  cases p with
  | nil => simp [per_page] at hp
  | cons a t =>
    simp only [listLoop, toResp]
    simp [hp, per_page]

/-- A nonempty page of fewer than `per_page` items ends the loop with the
accumulated batch. -/
theorem listLoop_short_step (p : List RepoRecord) (h1 : p ≠ [])
    (h2 : p.length < per_page) (L : List PageResp) (acc : List RepoRecord)
    (reqs : Nat) :
    listLoop (toResp p :: L) acc reqs = .ok (acc ++ p) (reqs + 1) := by
  cases p with
  | nil => exact absurd rfl h1
  | cons a t =>
    simp only [List.length_cons] at h2
    simp only [listLoop, toResp]
    simp [h2]

/-- An empty page is falsy in Python, so the combined guard of line 123
raises `SystemExit` before the break of line 126 can run. -/
theorem listLoop_empty_step (L : List PageResp) (acc : List RepoRecord)
    (reqs : Nat) :
    listLoop (toResp [] :: L) acc reqs = .fatalErr (reqs + 1) := by
  simp [listLoop, toResp]

/-- A run of pages of exactly `per_page` items each is consumed whole, one
request per page, appending their concatenation. -/
theorem listLoop_full_pages (pages : List (List RepoRecord)) :
    ∀ (rest : List PageResp) (acc : List RepoRecord) (reqs : Nat),
      (∀ p ∈ pages, p.length = per_page) →
      listLoop (pages.map toResp ++ rest) acc reqs =
        listLoop rest (acc ++ pages.flatten) (reqs + pages.length) := by
  induction pages with
  | nil => intro rest acc reqs _; simp
  | cons p ps ih =>
    intro rest acc reqs hfull
    have hp : p.length = per_page := hfull p (List.mem_cons_self _ _)
    have hps : ∀ q ∈ ps, q.length = per_page :=
      fun q hq => hfull q (List.mem_cons_of_mem _ hq)
    simp only [List.map_cons, List.cons_append]
    rw [listLoop_full_step p hp, ih rest (acc ++ p) (reqs + 1) hps]
    simp only [List.flatten_cons, List.append_assoc, List.length_cons]
    congr 1
    omega

/-- The loop only returns a batch at the short-page break, after appending a
nonempty page, so a returned batch is never empty. -/
theorem listLoop_ok_ne_nil (resps : List PageResp) :
    ∀ (acc : List RepoRecord) (reqs : Nat) (repos : List RepoRecord) (n : Nat),
      listLoop resps acc reqs = .ok repos n → repos ≠ [] := by
  induction resps with
  | nil => intro acc reqs repos n h; simp [listLoop] at h
  | cons r rest ih =>
    intro acc reqs repos n h
    obtain ⟨status, body⟩ := r
    simp only [listLoop] at h
    by_cases hs : status ≠ 200
    · simp only [if_pos hs] at h; cases h
    · simp only [if_neg hs] at h
      cases body with
      | none => cases h
      | some pb =>
        cases pb with
        | otherJson => cases h
        | jsonList items =>
          by_cases he : items.isEmpty
          · simp only [if_pos he] at h; cases h
          · have hne : items ≠ [] := fun hnil => by simp [hnil] at he
            simp only [if_neg he] at h
            rw [if_neg (fun h0 => hne (List.length_eq_zero.mp h0))] at h
            by_cases hlt : items.length < per_page
            · rw [if_pos hlt] at h
              injection h with h1 h2
              subst h1
              simp [List.append_eq_nil, hne]
            · rw [if_neg hlt] at h
              exact ih _ _ _ _ h

/-- The concatenation of full pages has length `per_page` times the page
count. -/
theorem flatten_full_length (pages : List (List RepoRecord))
    (hfull : ∀ p ∈ pages, p.length = per_page) :
    pages.flatten.length = per_page * pages.length := by
  induction pages with
  | nil => simp
  | cons p ps ih =>
    have hp : p.length = per_page := hfull p (List.mem_cons_self _ _)
    have hps : ∀ q ∈ ps, q.length = per_page :=
      fun q hq => hfull q (List.mem_cons_of_mem _ hq)
    simp [List.flatten_cons, hp, ih hps, Nat.mul_succ]
    omega

/-- A full page worth of items. -/
def fullBatch : List RepoRecord := List.replicate per_page rRepo

/-- A run whose one deletion fails with a 500 status. -/
def failWorld : World := ⟨[toResp [rRepo]], "DELETE ALL", fun _ => (500, none)⟩

/-- The deletion tally of `failWorld`. -/
def failTally : DeletionTally := ⟨0, 1, [(false, DeleteMsg.failedMsg "repo-a" 500 none)]⟩

/-- A run where the operator declines the confirmation. -/
def declineWorld : World := ⟨[toResp [rRepo]], "no", fun _ => (204, none)⟩

/-- A run whose one deletion succeeds. -/
def okWorld : World := ⟨[toResp [rRepo]], "DELETE ALL", fun _ => (204, none)⟩

/-- The deletion tally of `okWorld`. -/
def okTally : DeletionTally := ⟨1, 0, [(true, DeleteMsg.deletedMsg "repo-a")]⟩

/-- A remote whose delete calls all answer 404 with no body. -/
def absent404 : String → Nat × Option Json := fun _ => (404, none)

/-- An environment with one variable already set. -/
def baseEnv : Env := fun k => if k = "GITHUB_PAT" then some "token-a" else none

/-- Claim C1, counterexample: a completed run with one Failed deletion exits
with code 0, not 1 — `main` returns normally whatever `fail_count` is, so the
exit status is not non-zero when failed is positive. -/
theorem failed_run_exit_counterexample :
    (main failWorld).map RunResult.exitCode = some 0 ∧
    ((main failWorld).bind RunResult.tally).map DeletionTally.fail_count = some 1 :=
  ⟨rfl, rfl⟩

/-- Claim C1 (amended): every run that completes the deletion phase exits
with code 0 regardless of the failed count; failures surface only in the
printed summary, never in the exit status. -/
theorem completed_run_exit_code (w : World) (r : RunResult) (t : DeletionTally)
    (hr : main w = some r) (ht : r.tally = some t) : r.exitCode = 0 := by
  unfold main at hr
  split at hr
  · exact Option.noConfusion hr
  · cases hr; cases ht
  · rename_i repos k hq
    by_cases h0 : repos.length = 0
    · rw [if_pos h0] at hr; cases hr; cases ht
    · rw [if_neg h0] at hr
      by_cases hc : confirm_deletion w.confirmInput
      · rw [if_pos hc] at hr; cases hr; rfl
      · rw [if_neg hc] at hr; cases hr; cases ht

/-- Claim C1 witness: the amended theorem at the concrete one-item run whose
deletion fails. -/
theorem completed_run_exit_code_witness :
    RunResult.exitCode ⟨0, 1, some failTally⟩ = 0 :=
  completed_run_exit_code failWorld ⟨0, 1, some failTally⟩ failTally rfl rfl

/-- Claim C2 (code bug): a first page that returns status 200 with an empty
JSON list is caught by the falsy-body guard of line 123 and raises
SystemExit, exit code 1, instead of the empty batch and the
nothing-to-delete exit 0 that the dead break of line 126 and the empty-batch
branch of line 196 intend. -/
theorem empty_first_page_fatal :
    list_all_repos [toResp []] = ListOutcome.fatalErr 1 ∧
    main ⟨[toResp []], "DELETE ALL", fun _ => (204, none)⟩ = some ⟨1, 0, none⟩ :=
  ⟨rfl, rfl⟩

/-- Claim C3, counterexample: 100 items, one exactly-full page and no short
page; the loop issues a second request, receives the empty page and raises
SystemExit after 2 requests, returning no batch at all — neither the
concatenation in 1 request nor in 2. -/
theorem full_page_multiple_counterexample :
    list_all_repos [toResp fullBatch, toResp []] = ListOutcome.fatalErr 2 ∧
    (list_all_repos [toResp fullBatch, toResp []] ==
      ListOutcome.ok fullBatch 1) = false ∧
    (list_all_repos [toResp fullBatch, toResp []] ==
      ListOutcome.ok fullBatch 2) = false := by
  refine ⟨?_, ?_, ?_⟩ <;> rfl

/-- Claim C3 (amended): when the remote data ends in a short nonempty page,
`list_all_repos` returns exactly the concatenation of all pages in request
order using exactly ceil of total over 100 requests; when the data is a
whole number of full pages, the loop issues one extra request, receives the
empty page and aborts with a fatal listing error instead of returning. -/
theorem list_all_pagination (pages : List (List RepoRecord)) (last : List RepoRecord)
    (hfull : ∀ p ∈ pages, p.length = per_page)
    (h1 : last ≠ []) (h2 : last.length < per_page) :
    list_all_repos ((pages ++ [last]).map toResp) =
      ListOutcome.ok ((pages ++ [last]).flatten) (pages.length + 1) ∧
    pages.length + 1 =
      (((pages ++ [last]).flatten).length + (per_page - 1)) / per_page ∧
    list_all_repos (pages.map toResp ++ [toResp []]) =
      ListOutcome.fatalErr (pages.length + 1) := by
  refine ⟨?_, ?_, ?_⟩
  · unfold list_all_repos
    rw [List.map_append, listLoop_full_pages pages _ [] 0 hfull]
    simp only [List.map_cons, List.map_nil]
    rw [listLoop_short_step last h1 h2]
    simp [List.flatten_append]
  · rw [List.flatten_append, List.length_append, flatten_full_length pages hfull]
    simp only [List.flatten_cons, List.flatten_nil, List.append_nil]
    have hl0 : last.length ≠ 0 := fun h0 => h1 (List.length_eq_zero.mp h0)
    simp only [per_page] at *
    omega
  · unfold list_all_repos
    rw [listLoop_full_pages pages _ [] 0 hfull, listLoop_empty_step]
    simp

/-- Claim C3 witness: the amended theorem at one full page of 100 items
followed by a one-item short page, and at one full page followed by the
empty page. -/
theorem list_all_pagination_witness :
    list_all_repos (([fullBatch] ++ [[rRepo]]).map toResp) =
      ListOutcome.ok (([fullBatch] ++ [[rRepo]]).flatten) (1 + 1) ∧
    1 + 1 = ((([fullBatch] ++ [[rRepo]]).flatten).length + (per_page - 1)) / per_page ∧
    list_all_repos ([fullBatch].map toResp ++ [toResp []]) =
      ListOutcome.fatalErr (1 + 1) :=
  list_all_pagination [fullBatch] [rRepo] (by decide) (by decide) (by decide)

/-- Claim C4, counterexample: the input with a trailing space differs from
the exact phrase, yet the source strips it first and confirms. -/
theorem trailing_space_confirms :
    confirm_deletion "DELETE ALL " = true ∧
    (("DELETE ALL " : String) == "DELETE ALL") = false :=
  ⟨rfl, by decide⟩

/-- Claim C4 (amended): the gate confirms exactly when the stripped input
equals the phrase: for every input, true iff its stripped form is the
phrase, so every input whose stripped form differs is rejected, while an
input that strips to the phrase, such as one with a trailing space, is
accepted. -/
theorem confirm_strip_semantics (s : String) :
    (confirm_deletion s = true ↔ pyStrip s = "DELETE ALL") ∧
    (pyStrip s ≠ "DELETE ALL" → confirm_deletion s = false) ∧
    confirm_deletion "DELETE ALL " = true ∧
    confirm_deletion "delete all" = false ∧
    confirm_deletion "" = false := by
  refine ⟨?_, ?_, rfl, rfl, rfl⟩
  · simp [confirm_deletion]
  · intro h
    simpa [confirm_deletion, beq_eq_false_iff_ne] using h

/-- Claim C5: the gate returns true exactly when the stripped input is the
literal phrase; empty input, case variants and partial matches are refused. -/
theorem confirm_iff_stripped_phrase (s : String) :
    (confirm_deletion s = true ↔ pyStrip s = "DELETE ALL") ∧
    confirm_deletion "" = false ∧
    confirm_deletion "DeLeTe AlL" = false ∧
    confirm_deletion "DELETE" = false := by
  refine ⟨?_, rfl, rfl, rfl⟩
  simp [confirm_deletion]

/-- Claim C6: when the gate is reached and returns false, the run raises
SystemExit with code 1, issuing zero delete calls and no deletion phase. -/
theorem declined_confirmation_aborts (w : World) (repos : List RepoRecord) (n : Nat)
    (hlist : list_all_repos w.pages = ListOutcome.ok repos n)
    (hc : confirm_deletion w.confirmInput = false) :
    main w = some ⟨1, 0, none⟩ := by
  have hne : repos ≠ [] := listLoop_ok_ne_nil w.pages [] 0 repos n hlist
  have h0 : ¬(repos.length = 0) := fun h => hne (List.length_eq_zero.mp h)
  unfold main
  simp only [hlist]
  rw [if_neg h0]
  simp [hc]

/-- Claim C6 witness: a one-repository listing with the operator typing no. -/
theorem declined_confirmation_aborts_witness :
    main declineWorld = some ⟨1, 0, none⟩ :=
  declined_confirmation_aborts declineWorld [rRepo] 1 rfl rfl

/-- Claim C7, counterexample: one item whose delete call returns 404; the
run counts it in success_count, printed as Successfully deleted, so the
terminal summary reports 1 there although the set S of 204-deleted items is
empty — the summary itself carries no separate already-absent count. -/
theorem merged_summary_counterexample :
    deletionLoop absent404 [rRepo] =
      ⟨1, 0, [(true, DeleteMsg.absentMsg "repo-a")]⟩ ∧
    countDeleted (deletionLoop absent404 [rRepo]).log = 0 ∧
    ((deletionLoop absent404 [rRepo]).success_count ==
      countDeleted (deletionLoop absent404 [rRepo]).log) = false :=
  ⟨rfl, rfl, rfl⟩

/-- Claim C7 (amended): deleteAll is total, visiting every item exactly once
in original batch order; the per-item outcomes tag deleted, already-absent
and failed distinctly with counts matching the sets S, F and R, while the
printed Summary merges deleted and already-absent into the one success
counter and reports the failed count alone. -/
theorem deleteAll_total_classified (remote : String → Nat × Option Json)
    (repos : List RepoRecord) :
    (deletionLoop remote repos).log.length = repos.length ∧
    (deletionLoop remote repos).log.map (fun e => msgName e.2) =
      repos.map RepoRecord.name ∧
    countDeleted (deletionLoop remote repos).log =
      (repos.filter (fun r => (remote r.name).1 == 204)).length ∧
    countAbsent (deletionLoop remote repos).log =
      (repos.filter (fun r =>
        !((remote r.name).1 == 204) && (remote r.name).1 == 404)).length ∧
    countFailed (deletionLoop remote repos).log =
      (repos.filter (fun r =>
        !((remote r.name).1 == 204) && !((remote r.name).1 == 404))).length ∧
    (deletionLoop remote repos).success_count =
      countDeleted (deletionLoop remote repos).log +
        countAbsent (deletionLoop remote repos).log ∧
    (deletionLoop remote repos).fail_count =
      countFailed (deletionLoop remote repos).log :=
  ⟨deletionLoop_log_length remote repos, deletionLoop_log_names remote repos,
   deletionLoop_countDeleted remote repos, deletionLoop_countAbsent remote repos,
   deletionLoop_countFailed remote repos, deletionLoop_success_count remote repos,
   deletionLoop_fail_count remote repos⟩

/-- Claim C8: at the end of every run that completes the deletion phase, the
batch length equals the sum of the three outcome counts and also the sum of
the two printed counters: every record produces exactly one outcome. -/
theorem batch_outcome_partition (w : World) (repos : List RepoRecord) (n : Nat)
    (r : RunResult) (t : DeletionTally)
    (hlist : list_all_repos w.pages = ListOutcome.ok repos n)
    (hr : main w = some r) (ht : r.tally = some t) :
    countDeleted t.log + countAbsent t.log + countFailed t.log = repos.length ∧
    t.success_count + t.fail_count = repos.length ∧
    t.log.length = repos.length := by
  unfold main at hr
  simp only [hlist] at hr
  by_cases h0 : repos.length = 0
  · rw [if_pos h0] at hr; cases hr; cases ht
  · rw [if_neg h0] at hr
    by_cases hc : confirm_deletion w.confirmInput
    · rw [if_pos hc] at hr
      cases hr
      cases ht
      exact ⟨deletionLoop_counts_partition _ _, deletionLoop_total _ _,
        deletionLoop_log_length _ _⟩
    · rw [if_neg hc] at hr; cases hr; cases ht

/-- Claim C8 witness: a completed one-item run with a successful delete. -/
theorem batch_outcome_partition_witness :
    countDeleted okTally.log + countAbsent okTally.log + countFailed okTally.log = 1 ∧
    okTally.success_count + okTally.fail_count = 1 ∧
    okTally.log.length = 1 :=
  batch_outcome_partition okWorld [rRepo] 1 ⟨0, 1, some okTally⟩ okTally rfl rfl rfl

/-- Claim C9: loading the env file never overrides a variable already set:
any key bound in the environment before the load keeps its value. -/
theorem load_env_preserves_existing (env : Env) (fileLines : List String)
    (k v : String) (h : env k = some v) :
    load_env_from_file env fileLines k = some v := by
  induction fileLines generalizing env with
  | nil => exact h
  | cons line rest ih =>
    refine ih (applyEnvLine env line) ?_
    unfold applyEnvLine
    cases hp : parseEnvLine line with
    | none => simp only [hp]; exact h
    | some kv =>
      simp only [hp]
      by_cases hk : kv.1 = ""
      · rw [if_pos hk]; exact h
      · rw [if_neg hk]
        by_cases hs : (env kv.1).isSome
        · rw [if_pos hs]; exact h
        · rw [if_neg hs]
          by_cases he : k = kv.1
          · exact absurd (show (env kv.1).isSome = true by rw [← he, h]; rfl) hs
          · simpa [he] using h

/-- Claim C9 witness: a set variable survives a file line that rebinds it. -/
theorem load_env_preserves_existing_witness :
    load_env_from_file baseEnv ["GITHUB_PAT=token-b", "GITHUB_ORG_NAME=acme"]
      "GITHUB_PAT" = some "token-a" :=
  load_env_preserves_existing baseEnv ["GITHUB_PAT=token-b", "GITHUB_ORG_NAME=acme"]
    "GITHUB_PAT" "token-a" rfl

/-- Claim C10: call_github is total over HTTP responses: the status is
passed through, the body is absent exactly when the text is empty, a
decodable text is returned decoded, and an undecodable one is wrapped in a
one-field object instead of raising a decoding error. -/
theorem call_github_total (jsonLoads : String → Option Json) (e : HttpExchange) :
    (call_github jsonLoads e).1 = e.status ∧
    ((call_github jsonLoads e).2 = none ↔ e.raw = "") ∧
    (e.raw ≠ "" → jsonLoads e.raw = none →
      (call_github jsonLoads e).2 = some (Json.obj [("raw", Json.str e.raw)])) ∧
    (∀ j, e.raw ≠ "" → jsonLoads e.raw = some j →
      (call_github jsonLoads e).2 = some j) := by
  unfold call_github
  by_cases hr : e.raw = ""
  · simp [hr]
  · cases hj : jsonLoads e.raw <;> simp [hr, hj]

end DynoApps
